import Mathlib

/-!
Shallow embedding of the token/balance settlement core of the
`water-pulsa-be` backend (Prisma tables as Lean lists, handlers as pure
state-passing functions), together with theorems settling the frozen
claims about it.

Conventions:
* Monetary amounts are JS numbers used for currency; they are embedded as
  `Rat` (exact for the additions/subtractions/comparisons at issue).
* Prisma tables are lists of rows; `findFirst`/`findUnique` become
  `List.find?`, `update where <unique key>` becomes a `List.map` that
  rewrites the matching rows, `create` appends.
* A handler takes the database and its request arguments and returns the
  post-state database plus `Except ApiError result`; a thrown `ApiError`
  inside a `prisma.$transaction` rolls the transaction back, so the
  error branches return the input database unchanged, exactly as the
  source's transactional handlers do.
* `new Date()` timestamps are passed in as a `now : Nat` parameter.
-/

namespace WaterPulsa

/-- Currency amounts (JS numbers in the source). -/
abbrev Money := Rat

/-- Row of the `Device` table: id, deviceKey, status (active flag), owner. -/
structure Device where
  id : String
  deviceKey : String
  status : Bool
  userId : String
deriving Repr, DecidableEq

/-- Row of the `Token` table (`status` is "unused" or "used" per `TOKEN_STATUS`). -/
structure TokenRow where
  id : String
  deviceId : String
  token : String
  amount : Money
  status : String
  used_at : Option Nat
deriving Repr, DecidableEq

/-- Row of the `Balance` table (unique per deviceId). -/
structure BalanceRow where
  deviceId : String
  balance : Money
  lastToken : String
deriving Repr, DecidableEq

/-- Row of the append-only `UsageLog` table. -/
structure UsageLogRow where
  deviceId : String
  usageAmount : Money
  timeStamp : Nat
deriving Repr, DecidableEq

/-- The persistent state: the four Prisma tables the settlement core touches. -/
structure DB where
  devices : List Device
  tokens : List TokenRow
  balances : List BalanceRow
  usageLogs : List UsageLogRow
deriving Repr, DecidableEq

/-- `ApiError(message, statusCode)` from `src/middleware/error`. -/
structure ApiError where
  message : String
  statusCode : Nat
deriving Repr, DecidableEq

deriving instance DecidableEq for Except

/-- `prisma.device.findFirst({where: {deviceKey}})`. -/
def findDeviceByKey (db : DB) (key : String) : Option Device :=
  db.devices.find? (fun d => d.deviceKey == key)

/-- `prisma.device.findUnique({where: {id}})` (also the `include: {device}` relation). -/
def findDeviceById (db : DB) (id : String) : Option Device :=
  db.devices.find? (fun d => d.id == id)

/-- `prisma.token.findUnique({where: {token}})`. -/
def findTokenByString (db : DB) (t : String) : Option TokenRow :=
  db.tokens.find? (fun r => r.token == t)

/-- `prisma.balance.findUnique({where: {deviceId}})` (also `include: {Balance}`). -/
def findBalance (db : DB) (deviceId : String) : Option BalanceRow :=
  db.balances.find? (fun b => b.deviceId == deviceId)

/-- `prisma.balance.update({where: {deviceId}, data})`: rewrite the row keyed
by `deviceId` (unique in the schema) with `f`. -/
def updateBalanceRow (bs : List BalanceRow) (deviceId : String)
    (f : BalanceRow → BalanceRow) : List BalanceRow :=
  bs.map (fun b => if b.deviceId == deviceId then f b else b)

/-- `prisma.token.update({where: {id}, data: {status: 'used', used_at: new Date()}})`. -/
def markTokenUsed (ts : List TokenRow) (id : String) (now : Nat) : List TokenRow :=
  ts.map (fun r => if r.id == id then { r with status := "used", used_at := some now } else r)

/-- The balance value a device reads: the row's balance, or 0 when no row exists. -/
def balanceOf (db : DB) (deviceId : String) : Money :=
  ((findBalance db deviceId).map BalanceRow.balance).getD 0

/-- The lastToken marker a device reads: the row's lastToken, or "" when no row exists. -/
def lastTokenOf (db : DB) (deviceId : String) : String :=
  ((findBalance db deviceId).map BalanceRow.lastToken).getD ""

namespace usageService

/-- Result object of `usageService.logDeviceUsage`. -/
structure UsageRes where
  valid : Bool
  canUse : Bool
  remainingBalance : Money
  errMsg : Option String
  usageLog : Option UsageLogRow
deriving Repr, DecidableEq

/-- The body of `usageService.logDeviceUsage` after the get-or-create of the
Balance row: `db1` is the state after the lazy creation, `balance` the row that
was read (or just created). Rejects with a structured non-error result when the
balance is below `usageAmount`, otherwise debits and appends one UsageLog row. -/
def applyUsage (db1 : DB) (device : Device) (balance : BalanceRow)
    (usageAmount : Money) (now : Nat) : DB × Except ApiError UsageRes :=
  if balance.balance < usageAmount then
    (db1, .ok ⟨false, false, balance.balance, some "Insufficient balance", none⟩)
  else
    let newBal := balance.balance - usageAmount
    let db2 := { db1 with
      balances := updateBalanceRow db1.balances device.id (fun b => { b with balance := newBal }) }
    let row : UsageLogRow := ⟨device.id, usageAmount, now⟩
    let db3 := { db2 with usageLogs := db2.usageLogs ++ [row] }
    (db3, .ok ⟨true, true, newBal, none, some row⟩)

/-- `usageService.logDeviceUsage(deviceKey, usageAmount)` (src/services/usageService.js):
transactionally finds the device by key (404 if absent, 403 if inactive), lazily
creates its Balance row at 0 when absent, then runs `applyUsage` above. -/
def logDeviceUsage (db : DB) (deviceKey : String) (usageAmount : Money) (now : Nat) :
    DB × Except ApiError UsageRes :=
  match findDeviceByKey db deviceKey with
  | none => (db, .error ⟨"Device not found", 404⟩)
  | some device =>
    if device.status then
      match findBalance db device.id with
      | some b => applyUsage db device b usageAmount now
      | none =>
        let b : BalanceRow := ⟨device.id, 0, ""⟩
        applyUsage { db with balances := db.balances ++ [b] } device b usageAmount now
    else (db, .error ⟨"Device is inactive", 403⟩)

end usageService

namespace deviceIoTController

/-- Success payload of the IoT usage endpoint. -/
structure IoTUsagePayload where
  valid : Bool
  remainingBalance : Money
  canUse : Bool
deriving Repr, DecidableEq

/-- `deviceIoTController.logDeviceUsage` (src/controllers/deviceIoTController.js):
finds the device by key (404 absent, 403 inactive), validates the amount, then
ALWAYS appends the UsageLog row, and clamps the balance at 0 with
`Math.max(0, balance - usageAmount)` instead of rejecting an insufficient debit.
Missing body fields are embedded as `none`. -/
def logDeviceUsage (db : DB) (deviceKey : Option String) (usageAmount : Option Money)
    (now : Nat) : DB × Except ApiError IoTUsagePayload :=
  match deviceKey with
  | none => (db, .error ⟨"Device key is required", 400⟩)
  | some key =>
    match findDeviceByKey db key with
    | none => (db, .error ⟨"Device not found", 404⟩)
    | some device =>
      if device.status then
        match usageAmount with
        | none => (db, .error ⟨"Invalid usage amount", 400⟩)
        | some ua =>
          if ua ≤ 0 then (db, .error ⟨"Invalid usage amount", 400⟩)
          else
            let db1 := { db with usageLogs := db.usageLogs ++ [⟨device.id, ua, now⟩] }
            match findBalance db device.id with
            | some b =>
              let newBalance := max 0 (b.balance - ua)
              let db2 := { db1 with
                balances := updateBalanceRow db1.balances device.id
                  (fun r => { r with balance := newBalance }) }
              (db2, .ok ⟨true, newBalance, decide (0 < newBalance)⟩)
            | none => (db1, .ok ⟨true, 0, false⟩)
      else (db, .error ⟨"Device is inactive", 403⟩)

end deviceIoTController

namespace tokenService

/-- Result object of `tokenService.validateToken`. -/
structure ValidateRes where
  valid : Bool
  amount : Money
  balance : Money
deriving Repr, DecidableEq

/-- `tokenService.validateToken(tokenValue, deviceKey)` (src/services/tokenService.js):
in one transaction, looks the token up by its external string (400 "Invalid token"
if absent), rejects an already-used token (400), rejects a device-key mismatch
(400) and an inactive owning device (403); on success marks the token used with
`used_at = now` and credits the owning device's Balance row (creating it at the
token's amount when absent), setting `lastToken` to the token string.
The owning device is reachable through the `include: {device: true}` relation;
a dangling foreign key would crash the handler, embedded as a 500. -/
def validateToken (db : DB) (tokenValue deviceKey : String) (now : Nat) :
    DB × Except ApiError ValidateRes :=
  match findTokenByString db tokenValue with
  | none => (db, .error ⟨"Invalid token", 400⟩)
  | some token =>
    if token.status == "used" then
      (db, .error ⟨"Token has already been used", 400⟩)
    else
      match findDeviceById db token.deviceId with
      | none => (db, .error ⟨"Internal server error", 500⟩)
      | some device =>
        if device.deviceKey == deviceKey then
          if device.status then
            let db1 := { db with tokens := markTokenUsed db.tokens token.id now }
            match findBalance db1 token.deviceId with
            | none =>
              let row : BalanceRow := ⟨token.deviceId, token.amount, tokenValue⟩
              ({ db1 with balances := db1.balances ++ [row] },
               .ok ⟨true, token.amount, token.amount⟩)
            | some b =>
              let nb := b.balance + token.amount
              let bs := updateBalanceRow db1.balances token.deviceId
                (fun r => { r with balance := nb, lastToken := tokenValue })
              ({ db1 with balances := bs }, .ok ⟨true, token.amount, nb⟩)
          else (db, .error ⟨"Device is inactive", 403⟩)
        else (db, .error ⟨"Token does not belong to this device", 400⟩)

/-- `isAdmin` (src/utils/authorization.js): `role === ROLES.ADMIN || role ===
ROLES.SUPER_ADMIN`; `ROLES.SUPER_ADMIN` is undefined in src/config/constants.js,
so the second disjunct never holds for a string role. -/
def isAdmin (userRole : String) : Bool :=
  userRole == "ADMIN"

/-- `verifyOwnership` (src/utils/authorization.js) specialised to the
`getOwnerId = null` call in `createToken`: admin, or `resource.userId === userId`. -/
def verifyOwnership (d : Device) (userId userRole : String) : Bool :=
  isAdmin userRole || d.userId == userId

/-- `tokenService.createToken({deviceId, amount}, userId, userRole)`
(src/services/tokenService.js): the device must exist (404), ownership is
enforced (`enforceOwnership` throws 404 otherwise), then the token row is
persisted with state `unused`. The generated external string and the new row id
come from outside the function and are passed in (`tokenValue`, `newId`). -/
def createToken (db : DB) (deviceId : String) (amount : Money)
    (userId userRole : String) (tokenValue newId : String) :
    DB × Except ApiError TokenRow :=
  match findDeviceById db deviceId with
  | none => (db, .error ⟨"Device not found", 404⟩)
  | some device =>
    if verifyOwnership device userId userRole then
      let row : TokenRow := ⟨newId, deviceId, tokenValue, amount, "unused", none⟩
      ({ db with tokens := db.tokens ++ [row] }, .ok row)
    else (db, .error ⟨"Device not found or you do not have permission", 404⟩)

end tokenService

namespace validator

/-- `rules.createToken` (src/middleware/validator.js): `deviceId` must be
non-empty and `amount` must pass `isFloat({min: 0.01})`. -/
def createTokenRules (deviceId : String) (amount : Money) : Bool :=
  !deviceId.isEmpty && ((1 : Money) / 100 ≤ amount)

end validator

/-- The `POST /tokens` pipeline (src/routes/v1/tokens.js): the `validate
(rules.createToken)` middleware rejects the request with a 400 before the
controller runs, otherwise `tokenController.createToken` delegates to
`tokenService.createToken` unchanged. -/
def createTokenEndpoint (db : DB) (deviceId : String) (amount : Money)
    (userId userRole : String) (tokenValue newId : String) :
    DB × Except ApiError TokenRow :=
  if validator.createTokenRules deviceId amount then
    tokenService.createToken db deviceId amount userId userRole tokenValue newId
  else (db, .error ⟨"Validation failed", 400⟩)

namespace userService

/-- Result object of `userService.checkDeviceBalance`. -/
structure BalanceCheckRes where
  valid : Bool
  balance : Money
  lastToken : String
deriving Repr, DecidableEq

/-- `userService.checkDeviceBalance(deviceKey)` (src/services/userService.js):
read-only; 404 for an unknown key, 403 for an inactive device, otherwise the
Balance row's values with balance 0 and lastToken "" when no row exists.
The database is returned unchanged: the handler performs no write. -/
def checkDeviceBalance (db : DB) (deviceKey : String) :
    DB × Except ApiError BalanceCheckRes :=
  match findDeviceByKey db deviceKey with
  | none => (db, .error ⟨"Device not found", 404⟩)
  | some device =>
    if device.status then
      match findBalance db device.id with
      | some b => (db, .ok ⟨true, b.balance, b.lastToken⟩)
      | none => (db, .ok ⟨true, 0, ""⟩)
    else (db, .error ⟨"Device is inactive", 403⟩)

/-- `userService.updateBalance(deviceId, amount, userId, userRole)`
(src/services/userService.js): the device must exist and, for a non-ADMIN
caller, belong to the caller; then the signed `amount` is added to the Balance
row unconditionally — no lower-bound check — creating the row at exactly
`amount` with `lastToken = ""` when absent. -/
def updateBalance (db : DB) (deviceId : String) (amount : Money)
    (userId userRole : String) : DB × Except ApiError BalanceRow :=
  match db.devices.find?
      (fun d => d.id == deviceId && (userRole == "ADMIN" || d.userId == userId)) with
  | none => (db, .error ⟨"Device not found or you do not have permission", 404⟩)
  | some _ =>
    match findBalance db deviceId with
    | none =>
      let row : BalanceRow := ⟨deviceId, amount, ""⟩
      ({ db with balances := db.balances ++ [row] }, .ok row)
    | some b =>
      let row := { b with balance := b.balance + amount }
      let bs := updateBalanceRow db.balances deviceId
        (fun r => { r with balance := b.balance + amount })
      ({ db with balances := bs }, .ok row)

end userService

namespace deviceIoTController

/-- Success payload of the IoT balance-check endpoint. -/
structure IoTBalancePayload where
  valid : Bool
  balance : Money
  lastToken : String
deriving Repr, DecidableEq

/-- `deviceIoTController.checkDeviceBalance` (src/controllers/deviceIoTController.js):
read-only; 400 when the key is missing, 404 unknown device, 403 inactive,
otherwise the Balance row's values with balance 0 and lastToken "" when no row
exists. The database is returned unchanged: the handler performs no write. -/
def checkDeviceBalance (db : DB) (deviceKey : Option String) :
    DB × Except ApiError IoTBalancePayload :=
  match deviceKey with
  | none => (db, .error ⟨"Device key is required", 400⟩)
  | some key =>
    match findDeviceByKey db key with
    | none => (db, .error ⟨"Device not found", 404⟩)
    | some device =>
      if device.status then
        match findBalance db device.id with
        | none => (db, .ok ⟨true, 0, ""⟩)
        | some b => (db, .ok ⟨true, b.balance, b.lastToken⟩)
      else (db, .error ⟨"Device is inactive", 403⟩)

/-- Success payload of the IoT token-validation endpoint. -/
structure IoTValidatePayload where
  valid : Bool
  balance : Money
  amount : Money
deriving Repr, DecidableEq

/-- `deviceIoTController.validateDeviceToken` (src/controllers/deviceIoTController.js):
finds the device by key (404 absent, 403 inactive), then looks the token up with
`findFirst({where: {token, status: 'unused'}})` — an absent token and an
already-used token are indistinguishable here, both yield the single 400
message "Invalid or already used token"; a token owned by another device yields
400 "Token does not belong to this device". On success the token is marked used
with `used_at = now` and the balance becomes `(device.Balance?.balance || 0) +
amount` (row created at the token amount when absent), `lastToken = token`. -/
def validateDeviceToken (db : DB) (deviceKey tokenValue : Option String)
    (now : Nat) : DB × Except ApiError IoTValidatePayload :=
  match deviceKey, tokenValue with
  | none, _ => (db, .error ⟨"Device key and token are required", 400⟩)
  | _, none => (db, .error ⟨"Device key and token are required", 400⟩)
  | some key, some tv =>
    match findDeviceByKey db key with
    | none => (db, .error ⟨"Device not found", 404⟩)
    | some device =>
      if device.status then
        match db.tokens.find? (fun r => r.token == tv && r.status == "unused") with
        | none => (db, .error ⟨"Invalid or already used token", 400⟩)
        | some tokenRecord =>
          if tokenRecord.deviceId == device.id then
            let db1 := { db with tokens := markTokenUsed db.tokens tokenRecord.id now }
            let currentBalance := ((findBalance db device.id).map BalanceRow.balance).getD 0
            let newBalance := currentBalance + tokenRecord.amount
            match findBalance db device.id with
            | some _ =>
              let db2 := { db1 with
                balances := updateBalanceRow db1.balances device.id
                  (fun r => { r with balance := newBalance, lastToken := tv }) }
              (db2, .ok ⟨true, newBalance, tokenRecord.amount⟩)
            | none =>
              let db2 := { db1 with
                balances := db1.balances ++ [⟨device.id, tokenRecord.amount, tv⟩] }
              (db2, .ok ⟨true, newBalance, tokenRecord.amount⟩)
          else (db, .error ⟨"Token does not belong to this device", 400⟩)
      else (db, .error ⟨"Device is inactive", 403⟩)

end deviceIoTController

namespace helpers

/-- The `characters` alphabet of the shuffle-based `generateDeviceToken`
variant (src/utils/helpers.js, numeric variant). -/
def characters : List Char := ['1', '2', '3', '4', '5', '6', '7', '8', '9', '0']

/-- JS `String.prototype.charAt`: the one-character string at the index, or the
empty string when the index is out of range. -/
def charAt (s : List Char) (i : Nat) : List Char :=
  if h : i < s.length then [s.get ⟨i, h⟩] else []

/-- The shuffle-based `generateDeviceToken(length = 16)` variant, up to the
final shuffle (`.sort(() => Math.random() - 0.5)` returns a permutation of its
input, quantified over in the theorems): `charAt(52 + r0)` for the "ensure at
least one number" step (with `r0 = Math.floor(Math.random()*10)`), then one
`charAt(fill i)` per loop index `i = 3 .. length-1` (with each
`fill i = Math.floor(Math.random()*charactersLength)`). -/
def generateDeviceToken (len : Nat) (r0 : Nat) (fill : Nat → Nat) : List Char :=
  charAt characters (52 + r0) ++
    (List.range' 3 (len - 3)).flatMap (fun i => charAt characters (fill i))

end helpers

/-- One step of a serialized schedule of usage debits: the requested amount,
the pre/post states and the result of `usageService.logDeviceUsage` there. -/
structure DebitStep where
  amount : Money
  pre : DB
  post : DB
  res : Except ApiError usageService.UsageRes
deriving Repr

/-- The trace of serially applying a list of usage debits through
`usageService.logDeviceUsage` on a fixed device key. -/
def debitTrace (db : DB) (key : String) (now : Nat) : List Money → List DebitStep
  | [] => []
  | a :: rest =>
    let s := usageService.logDeviceUsage db key a now
    ⟨a, db, s.1, s.2⟩ :: debitTrace s.1 key now rest

/-- A settlement operation presented with a fixed device key: a token
redemption (`tokenService.validateToken`) or a usage debit
(`usageService.logDeviceUsage`). -/
inductive SettlementOp where
  | redeem (tokenValue : String) (now : Nat)
  | debitUsage (usageAmount : Money) (now : Nat)
deriving Repr, DecidableEq

/-- Apply one settlement operation; besides the post state, report the credited
amount (0 unless the redemption succeeded) and the accepted debit amount
(0 unless the usage debit was applied). -/
def settleStep (db : DB) (key : String) : SettlementOp → DB × Money × Money
  | .redeem s now =>
    match tokenService.validateToken db s key now with
    | (db', .ok r) => (db', r.amount, 0)
    | (db', .error _) => (db', 0, 0)
  | .debitUsage ua now =>
    match usageService.logDeviceUsage db key ua now with
    | (db', .ok r) => if r.valid then (db', 0, ua) else (db', 0, 0)
    | (db', .error _) => (db', 0, 0)

/-- Serially apply a schedule of settlement operations, summing the credited
amounts and the accepted debit amounts along the way. -/
def settleRun (db : DB) (key : String) : List SettlementOp → DB × Money × Money
  | [] => (db, 0, 0)
  | op :: rest =>
    let s := settleStep db key op
    let t := settleRun s.1 key rest
    (t.1, s.2.1 + t.2.1, s.2.2 + t.2.2)

/- ------------------------------------------------------------------ -/
/- Supporting lemmas                                                   -/
/- ------------------------------------------------------------------ -/

/-- `find?` by device id after a keyed Balance update: the found row is the old
one, rewritten iff its key matches the updated key. -/
theorem find?_updateBalanceRow (bs : List BalanceRow) (did did' : String)
    (f : BalanceRow → BalanceRow) (hf : ∀ b, (f b).deviceId = b.deviceId) :
    (updateBalanceRow bs did f).find? (fun b => b.deviceId == did')
      = (bs.find? (fun b => b.deviceId == did')).map
          (fun b => if b.deviceId == did then f b else b) := by
  unfold updateBalanceRow
  rw [List.find?_map]
  have hpg : ∀ b : BalanceRow,
      ((if (b.deviceId == did) = true then f b else b).deviceId == did')
        = (b.deviceId == did') := by
    intro b
    split <;> simp [hf]
  simp only [Function.comp_def, hpg]

/-- `find?` by token string after `markTokenUsed`: marking preserves the token
string, so the found row is the old one, marked iff its id matches. -/
theorem find?_markTokenUsed (ts : List TokenRow) (id : String) (now : Nat) (s : String) :
    (markTokenUsed ts id now).find? (fun r => r.token == s)
      = (ts.find? (fun r => r.token == s)).map
          (fun r => if r.id == id then { r with status := "used", used_at := some now }
                    else r) := by
  unfold markTokenUsed
  rw [List.find?_map]
  have hpg : ∀ r : TokenRow,
      (((if (r.id == id) = true
            then { r with status := "used", used_at := some now } else r) : TokenRow).token == s)
        = (r.token == s) := by
    intro r
    split <;> rfl
  simp only [Function.comp_def, hpg]

/-- In a list whose keys are nodup, `find?` by the key of a member returns
exactly that member. -/
theorem find?_key_eq {α β : Type} [BEq β] [LawfulBEq β] (l : List α) (f : α → β)
    (hn : (l.map f).Nodup) (t : α) (ht : t ∈ l) :
    l.find? (fun x => f x == f t) = some t := by
  cases hfind : l.find? (fun x => f x == f t) with
  | none =>
    have := List.find?_eq_none.mp hfind t ht
    simp at this
  | some u =>
    have hu : f u = f t := by simpa using List.find?_some hfind
    have humem : u ∈ l := List.mem_of_find?_eq_some hfind
    rw [List.inj_on_of_nodup_map hn humem ht hu]

/-- Each `charAt` of the numeric alphabet at an in-range index contributes
exactly one character, itself from the alphabet. -/
theorem flatMap_charAt_spec (fill : Nat → Nat) (hfill : ∀ i, fill i < 10)
    (is : List Nat) :
    ((is.flatMap fun i => helpers.charAt helpers.characters (fill i)).length
        = is.length) ∧
    (∀ c ∈ is.flatMap fun i => helpers.charAt helpers.characters (fill i),
        c ∈ helpers.characters) := by
  induction is with
  | nil => simp
  | cons a as ih =>
    have ha : fill a < helpers.characters.length := hfill a
    constructor
    · rw [List.flatMap_cons, List.length_append, ih.1]
      have h1 : (helpers.charAt helpers.characters (fill a)).length = 1 := by
        simp [helpers.charAt, ha]
      rw [h1, List.length_cons]
      omega
    · intro c hc
      rw [List.flatMap_cons, List.mem_append] at hc
      rcases hc with hc | hc
      · simp only [helpers.charAt, dif_pos ha, List.mem_singleton] at hc
        rw [hc]
        exact helpers.characters.get_mem _ _
      · exact ih.2 c hc

/-- `usageService.logDeviceUsage` never touches the Device table. -/
theorem logDeviceUsage_devices (db : DB) (key : String) (ua : Money) (now : Nat) :
    (usageService.logDeviceUsage db key ua now).1.devices = db.devices := by
  cases hdev : findDeviceByKey db key with
  | none => simp [usageService.logDeviceUsage, hdev]
  | some device =>
    by_cases hact : device.status
    · cases hbal : findBalance db device.id with
      | some b =>
        have hred : usageService.logDeviceUsage db key ua now
            = usageService.applyUsage db device b ua now := by
          simp [usageService.logDeviceUsage, hdev, hact, hbal]
        rw [hred]
        unfold usageService.applyUsage
        split <;> rfl
      | none =>
        have hred : usageService.logDeviceUsage db key ua now
            = usageService.applyUsage
                { db with balances := db.balances ++ [⟨device.id, 0, ""⟩] }
                device ⟨device.id, 0, ""⟩ ua now := by
          simp [usageService.logDeviceUsage, hdev, hact, hbal]
        rw [hred]
        unfold usageService.applyUsage
        split <;> rfl
    · simp [usageService.logDeviceUsage, hdev, hact]

/-- Behaviour of one `usageService.logDeviceUsage` call on an existing active
device, split on whether the current balance covers the requested amount. -/
theorem logDeviceUsage_spec (db : DB) (key : String) (ua : Money) (now : Nat)
    (device : Device) (hdev : findDeviceByKey db key = some device)
    (hact : device.status = true) :
    (balanceOf db device.id < ua →
        (usageService.logDeviceUsage db key ua now).2
          = .ok ⟨false, false, balanceOf db device.id, some "Insufficient balance", none⟩ ∧
        balanceOf (usageService.logDeviceUsage db key ua now).1 device.id
          = balanceOf db device.id ∧
        (usageService.logDeviceUsage db key ua now).1.usageLogs = db.usageLogs) ∧
    (¬ balanceOf db device.id < ua →
        (usageService.logDeviceUsage db key ua now).2
          = .ok ⟨true, true, balanceOf db device.id - ua, none, some ⟨device.id, ua, now⟩⟩ ∧
        balanceOf (usageService.logDeviceUsage db key ua now).1 device.id
          = balanceOf db device.id - ua ∧
        (usageService.logDeviceUsage db key ua now).1.usageLogs
          = db.usageLogs ++ [⟨device.id, ua, now⟩]) := by
  cases hbal : findBalance db device.id with
  | some b =>
    have hb' : db.balances.find? (fun r => r.deviceId == device.id) = some b := hbal
    have hkeq : b.deviceId = device.id := by simpa using List.find?_some hb'
    have hbv : balanceOf db device.id = b.balance := by simp [balanceOf, hbal]
    have hred : usageService.logDeviceUsage db key ua now
        = usageService.applyUsage db device b ua now := by
      simp [usageService.logDeviceUsage, hdev, hact, hbal]
    rw [hbv, hred]
    constructor
    · intro hlt
      unfold usageService.applyUsage
      rw [if_pos hlt]
      exact ⟨rfl, by simp [balanceOf, hbal], rfl⟩
    · intro hge
      unfold usageService.applyUsage
      rw [if_neg hge]
      refine ⟨rfl, ?_, rfl⟩
      simp only [balanceOf, findBalance]
      rw [find?_updateBalanceRow db.balances device.id device.id
        (fun r => { r with balance := b.balance - ua }) (fun _ => rfl), hb']
      simp [hkeq]
  | none =>
    have hb' : db.balances.find? (fun r => r.deviceId == device.id) = none := hbal
    have hbv : balanceOf db device.id = 0 := by simp [balanceOf, hbal]
    have hred : usageService.logDeviceUsage db key ua now
        = usageService.applyUsage { db with balances := db.balances ++ [⟨device.id, 0, ""⟩] }
            device ⟨device.id, 0, ""⟩ ua now := by
      simp [usageService.logDeviceUsage, hdev, hact, hbal]
    rw [hbv, hred]
    constructor
    · intro hlt
      unfold usageService.applyUsage
      rw [if_pos hlt]
      refine ⟨rfl, ?_, rfl⟩
      simp only [balanceOf, findBalance]
      rw [List.find?_append, hb']
      simp
    · intro hge
      unfold usageService.applyUsage
      rw [if_neg hge]
      refine ⟨rfl, ?_, rfl⟩
      simp only [balanceOf, findBalance]
      rw [find?_updateBalanceRow _ device.id device.id
        (fun r => { r with balance := (0 : Money) - ua }) (fun _ => rfl)]
      rw [List.find?_append, hb']
      simp

/-- Marking a token used preserves the list of token strings. -/
theorem markTokenUsed_map_token (ts : List TokenRow) (id : String) (now : Nat) :
    (markTokenUsed ts id now).map TokenRow.token = ts.map TokenRow.token := by
  unfold markTokenUsed
  rw [List.map_map]
  congr 1
  funext r
  simp only [Function.comp_def]
  split <;> rfl

/-- On any error outcome, `tokenService.validateToken` returns the database
unchanged (the transaction rolls back). -/
theorem validateToken_error_state (db : DB) (s key : String) (now : Nat)
    (e : ApiError) (h : (tokenService.validateToken db s key now).2 = .error e) :
    (tokenService.validateToken db s key now).1 = db := by
  cases hft : findTokenByString db s with
  | none => simp [tokenService.validateToken, hft]
  | some t =>
    by_cases hused : (t.status == "used") = true
    · simp [tokenService.validateToken, hft, hused]
    · have hused' : (t.status == "used") = false := by rwa [Bool.not_eq_true] at hused
      cases hdevf : findDeviceById db t.deviceId with
      | none => simp [tokenService.validateToken, hft, hused', hdevf]
      | some device =>
        by_cases hkey : (device.deviceKey == key) = true
        · by_cases hact : device.status = true
          · exfalso
            cases hbal : db.balances.find? (fun b => b.deviceId == t.deviceId) with
            | none =>
              simp [tokenService.validateToken, findBalance, hft, hused', hdevf,
                hkey, hact, hbal] at h
            | some b =>
              simp [tokenService.validateToken, findBalance, hft, hused', hdevf,
                hkey, hact, hbal] at h
          · have hact' : device.status = false := by
              rwa [Bool.not_eq_true] at hact
            simp [tokenService.validateToken, hft, hused', hdevf, hkey, hact']
        · have hkey' : (device.deviceKey == key) = false := by
            rwa [Bool.not_eq_true] at hkey
          simp [tokenService.validateToken, hft, hused', hdevf, hkey']

/-- Success postconditions of `tokenService.validateToken`: the found token was
unused and owned by the presented active device; it is marked used with
`usedAt = now`; the owning device's balance value grows by exactly the token's
amount with `lastToken` set to the token string; and the result reports the
credited amount and the new balance. -/
theorem validateToken_success_spec (db : DB) (s key : String) (now : Nat)
    (db' : DB) (r : tokenService.ValidateRes)
    (h : tokenService.validateToken db s key now = (db', .ok r)) :
    ∃ t device, findTokenByString db s = some t ∧
      findDeviceById db t.deviceId = some device ∧
      device.deviceKey = key ∧ device.status = true ∧ t.status ≠ "used" ∧
      db'.devices = db.devices ∧
      db'.tokens = markTokenUsed db.tokens t.id now ∧
      findTokenByString db' s = some { t with status := "used", used_at := some now } ∧
      balanceOf db' t.deviceId = balanceOf db t.deviceId + t.amount ∧
      lastTokenOf db' t.deviceId = s ∧
      r = ⟨true, t.amount, balanceOf db t.deviceId + t.amount⟩ := by
  cases hft : findTokenByString db s with
  | none => simp [tokenService.validateToken, hft] at h
  | some t =>
    by_cases hused : (t.status == "used") = true
    · simp [tokenService.validateToken, hft, hused] at h
    · have hused' : (t.status == "used") = false := by rwa [Bool.not_eq_true] at hused
      cases hdevf : findDeviceById db t.deviceId with
      | none => simp [tokenService.validateToken, hft, hused', hdevf] at h
      | some device =>
        by_cases hkey : (device.deviceKey == key) = true
        · by_cases hact : device.status = true
          · have hft' : db.tokens.find? (fun u => u.token == s) = some t := hft
            refine ⟨t, device, rfl, hdevf, by simpa using hkey, hact,
              by simpa using hused', ?_⟩
            cases hbal : db.balances.find? (fun b => b.deviceId == t.deviceId) with
            | none =>
              have hred : tokenService.validateToken db s key now
                  = (⟨db.devices, markTokenUsed db.tokens t.id now,
                      db.balances ++ [⟨t.deviceId, t.amount, s⟩], db.usageLogs⟩,
                     .ok ⟨true, t.amount, t.amount⟩) := by
                simp [tokenService.validateToken, findBalance, hft, hused', hdevf,
                  hkey, hact, hbal]
              rw [hred] at h
              rw [Prod.mk.injEq] at h
              obtain ⟨h1, h2⟩ := h
              subst h1
              rw [Except.ok.injEq] at h2
              subst h2
              have hb0 : balanceOf db t.deviceId = 0 := by
                simp [balanceOf, findBalance, hbal]
              refine ⟨rfl, rfl, ?_, ?_, ?_, ?_⟩
              · simp only [findTokenByString]
                rw [find?_markTokenUsed, hft']
                simp
              · simp only [balanceOf, findBalance]
                rw [List.find?_append, hbal]
                simp [hb0]
              · simp only [lastTokenOf, findBalance]
                rw [List.find?_append, hbal]
                simp
              · simp [hb0]
            | some b =>
              have hkeq : b.deviceId = t.deviceId := by
                simpa using List.find?_some hbal
              have hred : tokenService.validateToken db s key now
                  = (⟨db.devices, markTokenUsed db.tokens t.id now,
                      updateBalanceRow db.balances t.deviceId
                        (fun rr => { rr with balance := b.balance + t.amount, lastToken := s }),
                      db.usageLogs⟩,
                     .ok ⟨true, t.amount, b.balance + t.amount⟩) := by
                simp [tokenService.validateToken, findBalance, hft, hused', hdevf,
                  hkey, hact, hbal]
              rw [hred] at h
              rw [Prod.mk.injEq] at h
              obtain ⟨h1, h2⟩ := h
              subst h1
              rw [Except.ok.injEq] at h2
              subst h2
              have hbv : balanceOf db t.deviceId = b.balance := by
                simp [balanceOf, findBalance, hbal]
              refine ⟨rfl, rfl, ?_, ?_, ?_, ?_⟩
              · simp only [findTokenByString]
                rw [find?_markTokenUsed, hft']
                simp
              · simp only [balanceOf, findBalance]
                rw [find?_updateBalanceRow _ t.deviceId t.deviceId
                  (fun rr => { rr with balance := b.balance + t.amount, lastToken := s })
                  (fun _ => rfl), hbal]
                simp [hkeq, hbv]
              · simp only [lastTokenOf, findBalance]
                rw [find?_updateBalanceRow _ t.deviceId t.deviceId
                  (fun rr => { rr with balance := b.balance + t.amount, lastToken := s })
                  (fun _ => rfl), hbal]
                simp [hkeq]
              · simp [hbv]
          · have hact' : device.status = false := by rwa [Bool.not_eq_true] at hact
            simp [tokenService.validateToken, hft, hused', hdevf, hkey, hact'] at h
        · have hkey' : (device.deviceKey == key) = false := by
            rwa [Bool.not_eq_true] at hkey
          simp [tokenService.validateToken, hft, hused', hdevf, hkey'] at h

/-- Success postconditions of `deviceIoTController.validateDeviceToken`; the
schema's unique constraint on the external token string (`htok`) lets the
marked token be read back by string. -/
theorem ioTValidate_success_spec (db : DB) (s key : String) (now : Nat)
    (htok : (db.tokens.map TokenRow.token).Nodup)
    (db' : DB) (p : deviceIoTController.IoTValidatePayload)
    (h : deviceIoTController.validateDeviceToken db (some key) (some s) now
          = (db', .ok p)) :
    ∃ t device, findDeviceByKey db key = some device ∧ device.status = true ∧
      db.tokens.find? (fun u => u.token == s && u.status == "unused") = some t ∧
      t.deviceId = device.id ∧ t.status = "unused" ∧
      db'.devices = db.devices ∧
      db'.tokens = markTokenUsed db.tokens t.id now ∧
      findTokenByString db' s = some { t with status := "used", used_at := some now } ∧
      balanceOf db' device.id = balanceOf db device.id + t.amount ∧
      lastTokenOf db' device.id = s ∧
      p = ⟨true, balanceOf db device.id + t.amount, t.amount⟩ := by
  cases hdev : findDeviceByKey db key with
  | none => simp [deviceIoTController.validateDeviceToken, hdev] at h
  | some device =>
    by_cases hact : device.status = true
    · cases htf : db.tokens.find? (fun u => u.token == s && u.status == "unused") with
      | none => simp [deviceIoTController.validateDeviceToken, hdev, hact, htf] at h
      | some t =>
        have htprop := List.find?_some htf
        rw [Bool.and_eq_true] at htprop
        have hts : t.token = s := by simpa using htprop.1
        have hstat : t.status = "unused" := by simpa using htprop.2
        by_cases hdid : (t.deviceId == device.id) = true
        · have hmarked : ∀ dbp : DB, dbp.tokens = markTokenUsed db.tokens t.id now →
              findTokenByString dbp s
                = some { t with status := "used", used_at := some now } := by
            intro dbp hdbp
            have hn : (dbp.tokens.map TokenRow.token).Nodup := by
              rw [hdbp, markTokenUsed_map_token]; exact htok
            have htmem : t ∈ db.tokens := List.mem_of_find?_eq_some htf
            have hgmem : { t with status := "used", used_at := some now } ∈ dbp.tokens := by
              rw [hdbp]
              have : (fun r : TokenRow => if r.id == t.id
                  then { r with status := "used", used_at := some now } else r) t
                  = { t with status := "used", used_at := some now } := by simp
              rw [← this]
              exact List.mem_map_of_mem _ htmem
            have hfk := find?_key_eq dbp.tokens TokenRow.token hn _ hgmem
            simp only [findTokenByString]
            have hs2 : ({ t with status := "used", used_at := some now } : TokenRow).token
                = s := hts
            rw [← hs2]
            exact hfk
          cases hbal : db.balances.find? (fun b => b.deviceId == device.id) with
          | none =>
            have hred : deviceIoTController.validateDeviceToken db (some key) (some s) now
                = (⟨db.devices, markTokenUsed db.tokens t.id now,
                    db.balances ++ [⟨device.id, t.amount, s⟩], db.usageLogs⟩,
                   .ok ⟨true, t.amount, t.amount⟩) := by
              simp [deviceIoTController.validateDeviceToken, findBalance, hdev, hact,
                htf, hdid, hbal]
            rw [hred] at h
            rw [Prod.mk.injEq] at h
            obtain ⟨h1, h2⟩ := h
            subst h1
            rw [Except.ok.injEq] at h2
            subst h2
            have hb0 : balanceOf db device.id = 0 := by
              simp [balanceOf, findBalance, hbal]
            refine ⟨t, device, rfl, hact, rfl, by simpa using hdid, hstat,
              rfl, rfl, hmarked _ rfl, ?_, ?_, ?_⟩
            · simp only [balanceOf, findBalance]
              rw [List.find?_append, hbal]
              simp [hb0]
            · simp only [lastTokenOf, findBalance]
              rw [List.find?_append, hbal]
              simp
            · simp [hb0]
          | some b =>
            have hkeq : b.deviceId = device.id := by
              simpa using List.find?_some hbal
            have hred : deviceIoTController.validateDeviceToken db (some key) (some s) now
                = (⟨db.devices, markTokenUsed db.tokens t.id now,
                    updateBalanceRow db.balances device.id
                      (fun rr => { rr with balance := b.balance + t.amount, lastToken := s }),
                    db.usageLogs⟩,
                   .ok ⟨true, b.balance + t.amount, t.amount⟩) := by
              simp [deviceIoTController.validateDeviceToken, findBalance, hdev, hact,
                htf, hdid, hbal]
            rw [hred] at h
            rw [Prod.mk.injEq] at h
            obtain ⟨h1, h2⟩ := h
            subst h1
            rw [Except.ok.injEq] at h2
            subst h2
            have hbv : balanceOf db device.id = b.balance := by
              simp [balanceOf, findBalance, hbal]
            refine ⟨t, device, rfl, hact, rfl, by simpa using hdid, hstat,
              rfl, rfl, hmarked _ rfl, ?_, ?_, ?_⟩
            · simp only [balanceOf, findBalance]
              rw [find?_updateBalanceRow _ device.id device.id
                (fun rr => { rr with balance := b.balance + t.amount, lastToken := s })
                (fun _ => rfl), hbal]
              simp [hkeq, hbv]
            · simp only [lastTokenOf, findBalance]
              rw [find?_updateBalanceRow _ device.id device.id
                (fun rr => { rr with balance := b.balance + t.amount, lastToken := s })
                (fun _ => rfl), hbal]
              simp [hkeq]
            · simp [hbv]
        · have hdid' : (t.deviceId == device.id) = false := by
            rwa [Bool.not_eq_true] at hdid
          simp [deviceIoTController.validateDeviceToken, hdev, hact, htf, hdid'] at h
    · have hact' : device.status = false := by rwa [Bool.not_eq_true] at hact
      simp [deviceIoTController.validateDeviceToken, hdev, hact'] at h

/-- `tokenService.validateToken` never touches the Device table. -/
theorem validateToken_devices (db : DB) (s key : String) (now : Nat) :
    (tokenService.validateToken db s key now).1.devices = db.devices := by
  cases hres : (tokenService.validateToken db s key now).2 with
  | error e => rw [validateToken_error_state db s key now e hres]
  | ok r =>
    have hpair : tokenService.validateToken db s key now
        = ((tokenService.validateToken db s key now).1, Except.ok r) := by
      rw [← hres]
    obtain ⟨t, d, -, -, -, -, -, hdevs, -⟩ :=
      validateToken_success_spec db s key now _ r hpair
    exact hdevs

/- ------------------------------------------------------------------ -/
/- Claim theorems                                                      -/
/- ------------------------------------------------------------------ -/

/-- C10: the shuffle-based `generateDeviceToken` variant, called with its
default length of 16, always returns a string of exactly 13 characters drawn
only from the digits 0-9: `charAt(52 + r0)` indexes past the 10-character
alphabet and contributes the empty string, and the fill loop runs only over
indices 3..15. The statement quantifies over the randoms (`r0` and each loop
draw `fill i` lie in 0..9) and over every possible outcome `out` of the final
comparator-based shuffle, which is some permutation of its input. -/
theorem C10_shuffle_generator_returns_13_digits (r0 : Nat) (fill : Nat → Nat)
    (out : List Char) (hr0 : r0 < 10) (hfill : ∀ i, fill i < 10)
    (hperm : out.Perm (helpers.generateDeviceToken 16 r0 fill)) :
    out.length = 13 ∧ ∀ c ∈ out, c.isDigit := by
  have hpre : helpers.generateDeviceToken 16 r0 fill
      = (List.range' 3 13).flatMap (fun i => helpers.charAt helpers.characters (fill i)) := by
    unfold helpers.generateDeviceToken
    have hoob : ¬ (52 + r0 < helpers.characters.length) := by
      simp only [helpers.characters, List.length]
      omega
    rw [helpers.charAt, dif_neg hoob]
    rfl
  have h1 := flatMap_charAt_spec fill hfill (List.range' 3 13)
  have hlen : (helpers.generateDeviceToken 16 r0 fill).length = 13 := by
    rw [hpre, h1.1, List.length_range']
  refine ⟨by rw [hperm.length_eq, hlen], ?_⟩
  intro c hc
  have hcg : c ∈ helpers.generateDeviceToken 16 r0 fill := hperm.mem_iff.mp hc
  have hcc : c ∈ helpers.characters := h1.2 c (hpre ▸ hcg)
  have hdig : ∀ c ∈ helpers.characters, c.isDigit := by decide
  exact hdig c hcc

/-- Witness for C10 at concrete randoms, with the identity permutation as the
shuffle outcome. -/
theorem C10_witness :
    (helpers.generateDeviceToken 16 4 (fun i => i % 10)).length = 13 ∧
    ∀ c ∈ helpers.generateDeviceToken 16 4 (fun i => i % 10), c.isDigit :=
  C10_shuffle_generator_returns_13_digits 4 (fun i => i % 10) _ (by decide)
    (fun i => Nat.mod_lt _ (by decide)) (List.Perm.refl _)

/-- C8: for an existing, active device with no Balance row, both balance-check
paths (`userService.checkDeviceBalance` and the IoT controller's
`checkDeviceBalance`) return balance 0 and an empty lastToken, and hand back
the database unchanged — no Balance, UsageLog or Token row is created. -/
theorem C8_check_balance_without_row (db : DB) (key : String) (device : Device)
    (hdev : findDeviceByKey db key = some device) (hact : device.status = true)
    (hnob : findBalance db device.id = none) :
    userService.checkDeviceBalance db key = (db, .ok ⟨true, 0, ""⟩) ∧
    deviceIoTController.checkDeviceBalance db (some key) = (db, .ok ⟨true, 0, ""⟩) := by
  constructor
  · simp only [userService.checkDeviceBalance, hdev, hact, hnob, if_true]
  · simp only [deviceIoTController.checkDeviceBalance, hdev, hact, hnob, if_true]

/-- Witness for C8: an active device with no Balance row. -/
theorem C8_witness :
    userService.checkDeviceBalance ⟨[⟨"d1", "D1", true, "u1"⟩], [], [], []⟩ "D1"
        = (⟨[⟨"d1", "D1", true, "u1"⟩], [], [], []⟩, .ok ⟨true, 0, ""⟩) ∧
    deviceIoTController.checkDeviceBalance ⟨[⟨"d1", "D1", true, "u1"⟩], [], [], []⟩
        (some "D1")
        = (⟨[⟨"d1", "D1", true, "u1"⟩], [], [], []⟩, .ok ⟨true, 0, ""⟩) :=
  C8_check_balance_without_row _ "D1" ⟨"d1", "D1", true, "u1"⟩ rfl rfl rfl

/-- C9: `userService.updateBalance` adds its signed amount unconditionally: for
an accessible device, an existing Balance row holding `b.balance` is stored as
`b.balance + a` for every `a` (no lower bound — a negative stored balance is
reachable, see the witness), and when no row exists one is created holding
exactly `a` with `lastToken = ""`. -/
theorem C9_updateBalance_unconditional_add (db : DB) (deviceId : String)
    (a : Money) (userId userRole : String) (device : Device)
    (hacc : db.devices.find?
        (fun d => d.id == deviceId && (userRole == "ADMIN" || d.userId == userId))
        = some device) :
    (∀ b, findBalance db deviceId = some b →
        (userService.updateBalance db deviceId a userId userRole).2
            = .ok { b with balance := b.balance + a } ∧
        balanceOf (userService.updateBalance db deviceId a userId userRole).1 deviceId
            = b.balance + a) ∧
    (findBalance db deviceId = none →
        (userService.updateBalance db deviceId a userId userRole).2
            = .ok ⟨deviceId, a, ""⟩ ∧
        findBalance (userService.updateBalance db deviceId a userId userRole).1 deviceId
            = some ⟨deviceId, a, ""⟩) := by
  constructor
  · intro b hb
    have hb' : db.balances.find? (fun r => r.deviceId == deviceId) = some b := hb
    have hkey : (b.deviceId == deviceId) = true := by
      have h := List.find?_some hb'
      simpa using h
    simp only [userService.updateBalance, hacc, hb]
    refine ⟨by simp, ?_⟩
    simp only [balanceOf, findBalance]
    rw [find?_updateBalanceRow db.balances deviceId deviceId
      (fun r => { r with balance := b.balance + a }) (fun _ => rfl), hb']
    have hkeq : b.deviceId = deviceId := by simpa using hkey
    simp [hkeq]
  · intro hb
    simp only [userService.updateBalance, hacc, hb]
    refine ⟨by simp, ?_⟩
    simp only [findBalance] at hb ⊢
    rw [List.find?_append, hb]
    simp

/-- Witness for C9: an existing row holding 10 updated by −25 stores −15,
a balance below 0. -/
theorem C9_witness :
    ((userService.updateBalance
        ⟨[⟨"d1", "D1", true, "u1"⟩], [], [⟨"d1", 10, ""⟩], []⟩ "d1" (-25) "u1" "USER").2
          = .ok ⟨"d1", -15, ""⟩ ∧
     balanceOf (userService.updateBalance
        ⟨[⟨"d1", "D1", true, "u1"⟩], [], [⟨"d1", 10, ""⟩], []⟩ "d1" (-25) "u1" "USER").1 "d1"
          = -15) ∧ (-15 : Money) < 0 := by
  have h := (C9_updateBalance_unconditional_add
      ⟨[⟨"d1", "D1", true, "u1"⟩], [], [⟨"d1", 10, ""⟩], []⟩ "d1" (-25) "u1" "USER"
      ⟨"d1", "D1", true, "u1"⟩ rfl).1 ⟨"d1", 10, ""⟩ rfl
  have e : (10 : Money) + (-25) = -15 := by norm_num
  rw [e] at h
  exact ⟨⟨h.1, h.2⟩, by norm_num⟩

/-- C7: the `POST /tokens` pipeline rejects any amount ≤ 0 in the
`rules.createToken` validation middleware (amount must be ≥ 0.01) before any
persistence — the database comes back unchanged, so no Token row is created —
and a successful issue implies the device exists and appends exactly one token
row persisted with state `unused`. -/
theorem C7_issue_token_amount_validation (db : DB) (deviceId : String)
    (amount : Money) (userId userRole tokenValue newId : String) :
    (amount ≤ 0 →
        createTokenEndpoint db deviceId amount userId userRole tokenValue newId
          = (db, .error ⟨"Validation failed", 400⟩)) ∧
    (∀ db' t, createTokenEndpoint db deviceId amount userId userRole tokenValue newId
          = (db', .ok t) →
        ∃ device, findDeviceById db deviceId = some device ∧
          db'.tokens = db.tokens ++ [⟨newId, deviceId, tokenValue, amount, "unused", none⟩] ∧
          t.status = "unused") := by
  constructor
  · intro hle
    have hrule : validator.createTokenRules deviceId amount = false := by
      have hnot : ¬ ((1 : Money) / 100 ≤ amount) := by
        intro hc
        have h0 : (0 : Money) < 1 / 100 := by norm_num
        linarith
      have hd : (decide ((1 : Money) / 100 ≤ amount)) = false := decide_eq_false hnot
      unfold validator.createTokenRules
      rw [hd, Bool.and_false]
    simp [createTokenEndpoint, hrule]
  · intro db' t h
    by_cases hrule : validator.createTokenRules deviceId amount = true
    · simp only [createTokenEndpoint, hrule, if_true] at h
      cases hdev : findDeviceById db deviceId with
      | none => simp [tokenService.createToken, hdev] at h
      | some device =>
        refine ⟨device, rfl, ?_⟩
        by_cases hown : tokenService.verifyOwnership device userId userRole = true
        · simp only [tokenService.createToken, hdev, hown, if_true] at h
          rw [Prod.mk.injEq] at h
          obtain ⟨h1, h2⟩ := h
          subst h1
          rw [Except.ok.injEq] at h2
          subst h2
          exact ⟨rfl, rfl⟩
        · simp [tokenService.createToken, hdev, hown] at h
    · rw [Bool.not_eq_true] at hrule
      simp [createTokenEndpoint, hrule] at h

/-- Witness for C7: issuing with amount 0 is rejected by validation and the
database is unchanged, so no Token row is created. -/
theorem C7_witness :
    (0 : Money) ≤ 0 ∧
    createTokenEndpoint ⟨[⟨"d1", "D1", true, "u1"⟩], [], [], []⟩ "d1" 0 "u1" "ADMIN" "TX" "t9"
      = (⟨[⟨"d1", "D1", true, "u1"⟩], [], [], []⟩, .error ⟨"Validation failed", 400⟩) :=
  ⟨le_refl 0,
   (C7_issue_token_amount_validation _ "d1" 0 "u1" "ADMIN" "TX" "t9").1 (le_refl 0)⟩

/-- C1 counterexample: on the live IoT usage route
(`deviceIoTController.logDeviceUsage`, POST /device/usage), a request on an
existing active device with positive usageAmount 20 and current balance 10 <
20 nevertheless appends a UsageLog row, changes the stored balance (10 ↦ 0 by
the `Math.max(0, …)` clamp) and reports success with remainingBalance 0 — not
the pre-debit balance — contradicting the claim for this usage-debit path. -/
theorem C1_counterexample :
    balanceOf (⟨[⟨"d1", "D1", true, "u1"⟩], [], [⟨"d1", 10, ""⟩], []⟩ : DB) "d1" < 20 ∧
    deviceIoTController.logDeviceUsage
        (⟨[⟨"d1", "D1", true, "u1"⟩], [], [⟨"d1", 10, ""⟩], []⟩ : DB)
        (some "D1") (some 20) 3
      = (⟨[⟨"d1", "D1", true, "u1"⟩], [], [⟨"d1", 0, ""⟩], [⟨"d1", 20, 3⟩]⟩,
         .ok ⟨true, 0, false⟩) := by
  constructor
  · decide
  · simp [deviceIoTController.logDeviceUsage, findDeviceByKey, findBalance,
      updateBalanceRow, List.find?]
    norm_num

/-- C1 (amended to the transactional settlement path,
`usageService.logDeviceUsage`, used by the bearer-token POST /usage route):
on an existing active device with positive usageAmount, an insufficient
balance leaves the balance value unchanged, appends no UsageLog row and
returns a structured non-error result (valid/canUse false) carrying the
current remaining balance; a sufficient balance is debited by exactly
usageAmount with exactly one UsageLog row appended. -/
theorem C1_amended_usage_debit_service (db : DB) (key : String) (ua : Money)
    (now : Nat) (device : Device) (hdev : findDeviceByKey db key = some device)
    (hact : device.status = true) (hpos : 0 < ua) :
    (balanceOf db device.id < ua →
        (usageService.logDeviceUsage db key ua now).2
          = .ok ⟨false, false, balanceOf db device.id, some "Insufficient balance", none⟩ ∧
        balanceOf (usageService.logDeviceUsage db key ua now).1 device.id
          = balanceOf db device.id ∧
        (usageService.logDeviceUsage db key ua now).1.usageLogs = db.usageLogs) ∧
    (ua ≤ balanceOf db device.id →
        (usageService.logDeviceUsage db key ua now).2
          = .ok ⟨true, true, balanceOf db device.id - ua, none, some ⟨device.id, ua, now⟩⟩ ∧
        balanceOf (usageService.logDeviceUsage db key ua now).1 device.id
          = balanceOf db device.id - ua ∧
        (usageService.logDeviceUsage db key ua now).1.usageLogs
          = db.usageLogs ++ [⟨device.id, ua, now⟩]) := by
  have h := logDeviceUsage_spec db key ua now device hdev hact
  exact ⟨h.1, fun hge => h.2 (not_lt.mpr hge)⟩

/-- Witness for C1 (amended): an active device with balance 30, a debit of
1000 (insufficient) and a debit of 20 (sufficient). -/
theorem C1_witness :
    ((0 : Money) < 1000 ∧
     (balanceOf (⟨[⟨"d1", "D1", true, "u1"⟩], [], [⟨"d1", 30, ""⟩], []⟩ : DB) "d1" < 1000 →
        (usageService.logDeviceUsage
            (⟨[⟨"d1", "D1", true, "u1"⟩], [], [⟨"d1", 30, ""⟩], []⟩ : DB) "D1" 1000 9).2
          = .ok ⟨false, false,
              balanceOf (⟨[⟨"d1", "D1", true, "u1"⟩], [], [⟨"d1", 30, ""⟩], []⟩ : DB) "d1",
              some "Insufficient balance", none⟩ ∧
        balanceOf (usageService.logDeviceUsage
            (⟨[⟨"d1", "D1", true, "u1"⟩], [], [⟨"d1", 30, ""⟩], []⟩ : DB) "D1" 1000 9).1 "d1"
          = balanceOf (⟨[⟨"d1", "D1", true, "u1"⟩], [], [⟨"d1", 30, ""⟩], []⟩ : DB) "d1" ∧
        (usageService.logDeviceUsage
            (⟨[⟨"d1", "D1", true, "u1"⟩], [], [⟨"d1", 30, ""⟩], []⟩ : DB) "D1" 1000 9).1.usageLogs
          = [])) ∧
    ((0 : Money) < 20 ∧
     (20 ≤ balanceOf (⟨[⟨"d1", "D1", true, "u1"⟩], [], [⟨"d1", 30, ""⟩], []⟩ : DB) "d1" →
        balanceOf (usageService.logDeviceUsage
            (⟨[⟨"d1", "D1", true, "u1"⟩], [], [⟨"d1", 30, ""⟩], []⟩ : DB) "D1" 20 9).1 "d1"
          = balanceOf (⟨[⟨"d1", "D1", true, "u1"⟩], [], [⟨"d1", 30, ""⟩], []⟩ : DB) "d1" - 20)) := by
  refine ⟨⟨by norm_num, ?_⟩, by norm_num, ?_⟩
  · exact (C1_amended_usage_debit_service
      (⟨[⟨"d1", "D1", true, "u1"⟩], [], [⟨"d1", 30, ""⟩], []⟩ : DB) "D1" 1000 9
      ⟨"d1", "D1", true, "u1"⟩ rfl rfl (by norm_num)).1
  · intro hge
    exact ((C1_amended_usage_debit_service
      (⟨[⟨"d1", "D1", true, "u1"⟩], [], [⟨"d1", 30, ""⟩], []⟩ : DB) "D1" 20 9
      ⟨"d1", "D1", true, "u1"⟩ rfl rfl (by norm_num)).2 hge).2.1

/-- C5 counterexample: on the IoT usage route a debit of 12 against a stored
balance of 7 — which would take the balance below 0 — is not rejected: the
call succeeds and the stored balance changes from 7 to 0, contradicting the
claim that any such debit is rejected and leaves the balance unchanged. -/
theorem C5_counterexample :
    balanceOf (⟨[⟨"d5", "K5", true, "u5"⟩], [], [⟨"d5", 7, ""⟩], []⟩ : DB) "d5" = 7 ∧
    (7 : Money) - 12 < 0 ∧
    deviceIoTController.logDeviceUsage
        (⟨[⟨"d5", "K5", true, "u5"⟩], [], [⟨"d5", 7, ""⟩], []⟩ : DB)
        (some "K5") (some 12) 4
      = (⟨[⟨"d5", "K5", true, "u5"⟩], [], [⟨"d5", 0, ""⟩], [⟨"d5", 12, 4⟩]⟩,
         .ok ⟨true, 0, false⟩) := by
  refine ⟨by decide, by norm_num, ?_⟩
  simp [deviceIoTController.logDeviceUsage, findDeviceByKey, findBalance,
    updateBalanceRow, List.find?]
  norm_num

/-- C5 (amended to the transactional settlement path,
`usageService.logDeviceUsage`): along every serialized sequence of usage
debits on an existing active device, every applied (valid) debit leaves the
stored balance ≥ 0, and every debit exceeding the balance at its point of
application is rejected (valid = false) with the balance value unchanged. -/
theorem C5_amended_sequential_debits (key : String) (now : Nat) (device : Device)
    (hact : device.status = true) (amounts : List Money) :
    ∀ db, findDeviceByKey db key = some device →
      ∀ st ∈ debitTrace db key now amounts,
        (∀ r, st.res = .ok r → r.valid = true → 0 ≤ balanceOf st.post device.id) ∧
        (balanceOf st.pre device.id < st.amount →
          balanceOf st.post device.id = balanceOf st.pre device.id ∧
          ∀ r, st.res = .ok r → r.valid = false) := by
  induction amounts with
  | nil =>
    intro db _ st hst
    simp [debitTrace] at hst
  | cons a rest ih =>
    intro db hdev st hst
    have hspec := logDeviceUsage_spec db key a now device hdev hact
    rw [debitTrace] at hst
    rcases List.mem_cons.mp hst with hst | hst
    · subst hst
      constructor
      · intro r hr hv
        by_cases hlt : balanceOf db device.id < a
        · exfalso
          have h1 := (hspec.1 hlt).1
          dsimp only at hr
          rw [h1] at hr
          cases hr
          simp at hv
        · have h2 := (hspec.2 hlt).2.1
          dsimp only
          rw [h2]
          have hle : a ≤ balanceOf db device.id := not_lt.mp hlt
          linarith
      · intro hlt
        dsimp only at hlt ⊢
        refine ⟨(hspec.1 hlt).2.1, ?_⟩
        intro r hr
        have h1 := (hspec.1 hlt).1
        rw [h1] at hr
        cases hr
        rfl
    · have hdev' : findDeviceByKey (usageService.logDeviceUsage db key a now).1 key
          = some device := by
        unfold findDeviceByKey at hdev ⊢
        rw [logDeviceUsage_devices]
        exact hdev
      exact ih (usageService.logDeviceUsage db key a now).1 hdev' st hst

/-- C2: a token in state `used` is rejected by `tokenService.validateToken`
with the "Token has already been used" error — and by the IoT controller's
`validateDeviceToken` with its merged "Invalid or already used token" error —
with the whole database, balance included, coming back unchanged; and any
`validateToken` call changes each token row either not at all or from
`unused` to `used` with `used_at` set: `unused → used` is the only transition
(tokens carry nodup ids, nodup strings and well-formed statuses, the schema's
invariants). -/
theorem C2_token_redeemed_at_most_once (db : DB) (s key : String) (now : Nat)
    (hids : (db.tokens.map TokenRow.id).Nodup)
    (htok : (db.tokens.map TokenRow.token).Nodup)
    (hst_all : ∀ u ∈ db.tokens, u.status = "unused" ∨ u.status = "used") :
    (∀ t, findTokenByString db s = some t → t.status = "used" →
        tokenService.validateToken db s key now
          = (db, .error ⟨"Token has already been used", 400⟩)) ∧
    (∀ t, findTokenByString db s = some t → t.status = "used" →
      ∀ device, findDeviceByKey db key = some device → device.status = true →
        deviceIoTController.validateDeviceToken db (some key) (some s) now
          = (db, .error ⟨"Invalid or already used token", 400⟩)) ∧
    (∃ f, (tokenService.validateToken db s key now).1.tokens = db.tokens.map f ∧
        ∀ u ∈ db.tokens, f u = u ∨
          (u.status = "unused" ∧ f u = { u with status := "used", used_at := some now })) := by
  refine ⟨?_, ?_, ?_⟩
  · intro t hft hused
    have hb : (t.status == "used") = true := by simp [hused]
    simp [tokenService.validateToken, hft, hb]
  · intro t hft hused device hdev hact
    have htmem : t ∈ db.tokens := List.mem_of_find?_eq_some
      (show db.tokens.find? (fun x => x.token == s) = some t from hft)
    have hts : t.token = s := by
      simpa using List.find?_some
        (show db.tokens.find? (fun x => x.token == s) = some t from hft)
    have hnone : db.tokens.find? (fun u => u.token == s && u.status == "unused")
        = none := by
      rw [List.find?_eq_none]
      intro x hx hpx
      rw [Bool.and_eq_true] at hpx
      have hxt : x.token = s := by simpa using hpx.1
      have hxs : x.status = "unused" := by simpa using hpx.2
      have hxeq : x = t := List.inj_on_of_nodup_map htok hx htmem (hxt.trans hts.symm)
      rw [hxeq] at hxs
      rw [hxs] at hused
      exact absurd hused (by decide)
    simp [deviceIoTController.validateDeviceToken, hdev, hact, hnone]
  · cases hres : (tokenService.validateToken db s key now).2 with
    | error e =>
      refine ⟨fun u => u, ?_, fun u _ => Or.inl rfl⟩
      rw [validateToken_error_state db s key now e hres]
      simp
    | ok r =>
      have hpair : tokenService.validateToken db s key now
          = ((tokenService.validateToken db s key now).1, Except.ok r) := by
        rw [← hres]
      obtain ⟨t, d, hft, hdevf, -, -, hnotused, -, htoks, -, -, -, -⟩ :=
        validateToken_success_spec db s key now _ r hpair
      refine ⟨fun u => if u.id == t.id
          then { u with status := "used", used_at := some now } else u, ?_, ?_⟩
      · rw [htoks]; rfl
      · intro u hu
        by_cases hid : (u.id == t.id) = true
        · have htmem : t ∈ db.tokens := List.mem_of_find?_eq_some
            (show db.tokens.find? (fun x => x.token == s) = some t from hft)
          have hueq : u = t :=
            List.inj_on_of_nodup_map hids hu htmem (by simpa using hid)
          subst hueq
          right
          refine ⟨?_, by simp⟩
          rcases hst_all u hu with h1 | h1
          · exact h1
          · exact absurd h1 hnotused
        · exact Or.inl (by simp [hid])

/-- Witness for C2: a used token is rejected, state unchanged. -/
theorem C2_witness :
    (tokenService.validateToken
        (⟨[⟨"d1", "D1", true, "u1"⟩], [⟨"t1", "d1", "T1", 50, "used", some 1⟩],
          [⟨"d1", 50, "T1"⟩], []⟩ : DB) "T1" "D1" 5
      = ((⟨[⟨"d1", "D1", true, "u1"⟩], [⟨"t1", "d1", "T1", 50, "used", some 1⟩],
          [⟨"d1", 50, "T1"⟩], []⟩ : DB), .error ⟨"Token has already been used", 400⟩)) ∧
    (deviceIoTController.validateDeviceToken
        (⟨[⟨"d1", "D1", true, "u1"⟩], [⟨"t1", "d1", "T1", 50, "used", some 1⟩],
          [⟨"d1", 50, "T1"⟩], []⟩ : DB) (some "D1") (some "T1") 5
      = ((⟨[⟨"d1", "D1", true, "u1"⟩], [⟨"t1", "d1", "T1", 50, "used", some 1⟩],
          [⟨"d1", 50, "T1"⟩], []⟩ : DB), .error ⟨"Invalid or already used token", 400⟩)) ∧
    (∃ f, (tokenService.validateToken
        (⟨[⟨"d1", "D1", true, "u1"⟩], [⟨"t1", "d1", "T1", 50, "used", some 1⟩],
          [⟨"d1", 50, "T1"⟩], []⟩ : DB) "T1" "D1" 5).1.tokens
        = (⟨[⟨"d1", "D1", true, "u1"⟩], [⟨"t1", "d1", "T1", 50, "used", some 1⟩],
          [⟨"d1", 50, "T1"⟩], []⟩ : DB).tokens.map f ∧
      ∀ u ∈ (⟨[⟨"d1", "D1", true, "u1"⟩], [⟨"t1", "d1", "T1", 50, "used", some 1⟩],
          [⟨"d1", 50, "T1"⟩], []⟩ : DB).tokens, f u = u ∨
        (u.status = "unused" ∧ f u = { u with status := "used", used_at := some 5 })) := by
  have h := C2_token_redeemed_at_most_once
    (⟨[⟨"d1", "D1", true, "u1"⟩], [⟨"t1", "d1", "T1", 50, "used", some 1⟩],
      [⟨"d1", 50, "T1"⟩], []⟩ : DB) "T1" "D1" 5 (by decide) (by decide) (by decide)
  exact ⟨h.1 ⟨"t1", "d1", "T1", 50, "used", some 1⟩ rfl rfl,
    h.2.1 ⟨"t1", "d1", "T1", 50, "used", some 1⟩ rfl rfl
      ⟨"d1", "D1", true, "u1"⟩ rfl rfl, h.2.2⟩

/-- C3: every successful redemption — through `tokenService.validateToken` or
through the IoT controller's `validateDeviceToken` — was of an unused token
presented with the matching device key of an existing active device, and it
marks the token used with `usedAt = now`, raises the device's balance value by
exactly the token's amount (the Balance row being created at exactly that
amount when absent), sets `lastToken` to the token string, and returns the
credited amount with the new balance. -/
theorem C3_successful_redemption_settlement (db : DB) (s key : String) (now : Nat)
    (htok : (db.tokens.map TokenRow.token).Nodup) :
    (∀ db' r, tokenService.validateToken db s key now = (db', .ok r) →
        ∃ t device, findTokenByString db s = some t ∧
          findDeviceById db t.deviceId = some device ∧
          device.deviceKey = key ∧ device.status = true ∧ t.status ≠ "used" ∧
          findTokenByString db' s = some { t with status := "used", used_at := some now } ∧
          balanceOf db' t.deviceId = balanceOf db t.deviceId + t.amount ∧
          lastTokenOf db' t.deviceId = s ∧
          r = ⟨true, t.amount, balanceOf db t.deviceId + t.amount⟩) ∧
    (∀ db' p, deviceIoTController.validateDeviceToken db (some key) (some s) now
          = (db', .ok p) →
        ∃ (t : TokenRow) (device : Device),
          findDeviceByKey db key = some device ∧ device.status = true ∧
          t.deviceId = device.id ∧ t.status = "unused" ∧
          findTokenByString db' s = some { t with status := "used", used_at := some now } ∧
          balanceOf db' device.id = balanceOf db device.id + t.amount ∧
          lastTokenOf db' device.id = s ∧
          p = ⟨true, balanceOf db device.id + t.amount, t.amount⟩) := by
  constructor
  · intro db' r h
    obtain ⟨t, d, hft, hdevf, hk, hs, hu, -, -, hmark, hbal, hlast, hr⟩ :=
      validateToken_success_spec db s key now db' r h
    exact ⟨t, d, hft, hdevf, hk, hs, hu, hmark, hbal, hlast, hr⟩
  · intro db' p h
    obtain ⟨t, d, hdev, hs, -, hdid, hstat, -, -, hmark, hbal, hlast, hp⟩ :=
      ioTValidate_success_spec db s key now htok db' p h
    exact ⟨t, d, hdev, hs, hdid, hstat, hmark, hbal, hlast, hp⟩

/-- Witness for C3: concrete successful redemption of an unused 50-unit token
through `tokenService.validateToken` (the Balance row is created). -/
theorem C3_witness :
    ∃ t device,
      findTokenByString (⟨[⟨"d1", "D1", true, "u1"⟩],
          [⟨"t1", "d1", "T1", 50, "unused", none⟩], [], []⟩ : DB) "T1" = some t ∧
      findDeviceById (⟨[⟨"d1", "D1", true, "u1"⟩],
          [⟨"t1", "d1", "T1", 50, "unused", none⟩], [], []⟩ : DB) t.deviceId
        = some device ∧
      device.deviceKey = "D1" ∧ device.status = true ∧ t.status ≠ "used" ∧
      findTokenByString (⟨[⟨"d1", "D1", true, "u1"⟩],
          [⟨"t1", "d1", "T1", 50, "used", some 7⟩], [⟨"d1", 50, "T1"⟩], []⟩ : DB) "T1"
        = some { t with status := "used", used_at := some 7 } ∧
      balanceOf (⟨[⟨"d1", "D1", true, "u1"⟩],
          [⟨"t1", "d1", "T1", 50, "used", some 7⟩], [⟨"d1", 50, "T1"⟩], []⟩ : DB) t.deviceId
        = balanceOf (⟨[⟨"d1", "D1", true, "u1"⟩],
          [⟨"t1", "d1", "T1", 50, "unused", none⟩], [], []⟩ : DB) t.deviceId + t.amount ∧
      lastTokenOf (⟨[⟨"d1", "D1", true, "u1"⟩],
          [⟨"t1", "d1", "T1", 50, "used", some 7⟩], [⟨"d1", 50, "T1"⟩], []⟩ : DB) t.deviceId
        = "T1" ∧
      (⟨true, 50, 50⟩ : tokenService.ValidateRes)
        = ⟨true, t.amount, balanceOf (⟨[⟨"d1", "D1", true, "u1"⟩],
            [⟨"t1", "d1", "T1", 50, "unused", none⟩], [], []⟩ : DB) t.deviceId + t.amount⟩ :=
  (C3_successful_redemption_settlement
      (⟨[⟨"d1", "D1", true, "u1"⟩], [⟨"t1", "d1", "T1", 50, "unused", none⟩], [], []⟩ : DB)
      "T1" "D1" 7 (by decide)).1
    (⟨[⟨"d1", "D1", true, "u1"⟩], [⟨"t1", "d1", "T1", 50, "used", some 7⟩],
      [⟨"d1", 50, "T1"⟩], []⟩ : DB)
    ⟨true, 50, 50⟩ (by decide)

/-- C4 counterexample: on the IoT redemption route
(`deviceIoTController.validateDeviceToken`), an absent token and an
already-used token produce the identical error "Invalid or already used
token" — the two precondition violations are not reported with distinct
reasons on this path (state is still unmutated in both cases). -/
theorem C4_counterexample :
    deviceIoTController.validateDeviceToken
        (⟨[⟨"d4", "K4", true, "u4"⟩], [], [], []⟩ : DB) (some "K4") (some "S4") 2
      = ((⟨[⟨"d4", "K4", true, "u4"⟩], [], [], []⟩ : DB),
         .error ⟨"Invalid or already used token", 400⟩) ∧
    deviceIoTController.validateDeviceToken
        (⟨[⟨"d4", "K4", true, "u4"⟩], [⟨"t4", "d4", "S4", 5, "used", some 1⟩], [], []⟩ : DB)
        (some "K4") (some "S4") 2
      = ((⟨[⟨"d4", "K4", true, "u4"⟩], [⟨"t4", "d4", "S4", 5, "used", some 1⟩], [], []⟩ : DB),
         .error ⟨"Invalid or already used token", 400⟩) := by
  exact ⟨by decide, by decide⟩

/-- C4 (amended to `tokenService.validateToken`, the Token Store redeem):
each precondition violation fails with its own distinct reason — "Invalid
token" (absent), "Token has already been used", "Token does not belong to
this device", "Device is inactive" — and in every failure case the database
(balance and token state included) is returned unchanged. On the IoT
controller route, absent and already-used tokens share one message. -/
theorem C4_amended_distinct_failure_reasons (db : DB) (s key : String) (now : Nat) :
    (findTokenByString db s = none →
        tokenService.validateToken db s key now
          = (db, .error ⟨"Invalid token", 400⟩)) ∧
    (∀ t, findTokenByString db s = some t → t.status = "used" →
        tokenService.validateToken db s key now
          = (db, .error ⟨"Token has already been used", 400⟩)) ∧
    (∀ t d, findTokenByString db s = some t → t.status ≠ "used" →
        findDeviceById db t.deviceId = some d → d.deviceKey ≠ key →
        tokenService.validateToken db s key now
          = (db, .error ⟨"Token does not belong to this device", 400⟩)) ∧
    (∀ t d, findTokenByString db s = some t → t.status ≠ "used" →
        findDeviceById db t.deviceId = some d → d.deviceKey = key → d.status = false →
        tokenService.validateToken db s key now
          = (db, .error ⟨"Device is inactive", 403⟩)) ∧
    (["Invalid token", "Token has already been used",
      "Token does not belong to this device", "Device is inactive"] : List String).Nodup := by
  refine ⟨?_, ?_, ?_, ?_, by decide⟩
  · intro hft
    simp [tokenService.validateToken, hft]
  · intro t hft hused
    have hb : (t.status == "used") = true := by simp [hused]
    simp [tokenService.validateToken, hft, hb]
  · intro t d hft hnot hdevf hne
    have hb : (t.status == "used") = false := by simp [hnot]
    have hk : (d.deviceKey == key) = false := by simp [hne]
    simp [tokenService.validateToken, hft, hb, hdevf, hk]
  · intro t d hft hnot hdevf heq hinact
    have hb : (t.status == "used") = false := by simp [hnot]
    have hk : (d.deviceKey == key) = true := by simp [heq]
    simp [tokenService.validateToken, hft, hb, hdevf, hk, hinact]

/-- Witness for C4 (amended): an unknown token string is rejected with
"Invalid token" and the database is unchanged. -/
theorem C4_witness :
    tokenService.validateToken (⟨[⟨"d1", "D1", true, "u1"⟩], [], [], []⟩ : DB) "TX" "D1" 2
      = ((⟨[⟨"d1", "D1", true, "u1"⟩], [], [], []⟩ : DB), .error ⟨"Invalid token", 400⟩) :=
  (C4_amended_distinct_failure_reasons
    (⟨[⟨"d1", "D1", true, "u1"⟩], [], [], []⟩ : DB) "TX" "D1" 2).1 rfl

/-- One settlement step moves the settled device's balance by exactly the
reported credited amount minus the accepted debit amount, and leaves the
Device table untouched. -/
theorem settleStep_balance (db : DB) (key : String) (op : SettlementOp)
    (device : Device) (hkeys : (db.devices.map Device.deviceKey).Nodup)
    (hdev : findDeviceByKey db key = some device) (hact : device.status = true) :
    (settleStep db key op).1.devices = db.devices ∧
    balanceOf (settleStep db key op).1 device.id
      = balanceOf db device.id + (settleStep db key op).2.1
          - (settleStep db key op).2.2 := by
  cases op with
  | redeem s now =>
    cases hres : tokenService.validateToken db s key now with
    | mk db1 res =>
      cases res with
      | error e =>
        have h2 : (tokenService.validateToken db s key now).2 = .error e := by
          rw [hres]
        have h1 : db1 = db := by
          have hdb := validateToken_error_state db s key now e h2
          rw [hres] at hdb
          exact hdb
        subst h1
        simp [settleStep, hres]
      | ok r =>
        obtain ⟨t, d, hft, hdevf, hkeyd, hsd, -, hdevs, -, -, hbal, -, hr⟩ :=
          validateToken_success_spec db s key now db1 r hres
        have hdmem : d ∈ db.devices := List.mem_of_find?_eq_some
          (show db.devices.find? (fun x => x.id == t.deviceId) = some d from hdevf)
        have hdevmem : device ∈ db.devices := List.mem_of_find?_eq_some
          (show db.devices.find? (fun x => x.deviceKey == key) = some device from hdev)
        have hkdev : device.deviceKey = key := by
          simpa using List.find?_some
            (show db.devices.find? (fun x => x.deviceKey == key) = some device from hdev)
        have hde : d = device :=
          List.inj_on_of_nodup_map hkeys hdmem hdevmem (by rw [hkeyd, hkdev])
        have hdid : d.id = t.deviceId := by
          simpa using List.find?_some
            (show db.devices.find? (fun x => x.id == t.deviceId) = some d from hdevf)
        have hbal' : balanceOf db1 device.id = balanceOf db device.id + t.amount := by
          rw [← hde, hdid]
          exact hbal
        have hra : r.amount = t.amount := by rw [hr]
        constructor
        · simp [settleStep, hres, hdevs]
        · simp only [settleStep, hres]
          rw [hbal', hra]
          ring
  | debitUsage ua now =>
    have hspec := logDeviceUsage_spec db key ua now device hdev hact
    have hframe := logDeviceUsage_devices db key ua now
    by_cases hlt : balanceOf db device.id < ua
    · obtain ⟨hres2, hbal2, -⟩ := hspec.1 hlt
      cases hres : usageService.logDeviceUsage db key ua now with
      | mk db1 res =>
        rw [hres] at hres2 hbal2 hframe
        simp only at hres2 hbal2 hframe
        subst hres2
        have hstep : settleStep db key (.debitUsage ua now) = (db1, 0, 0) := by
          simp [settleStep, hres]
        rw [hstep]
        dsimp only
        rw [hbal2]
        exact ⟨hframe, by ring⟩
    · obtain ⟨hres2, hbal2, -⟩ := hspec.2 hlt
      cases hres : usageService.logDeviceUsage db key ua now with
      | mk db1 res =>
        rw [hres] at hres2 hbal2 hframe
        simp only at hres2 hbal2 hframe
        subst hres2
        have hstep : settleStep db key (.debitUsage ua now) = (db1, 0, ua) := by
          simp [settleStep, hres]
        rw [hstep]
        dsimp only
        rw [hbal2]
        exact ⟨hframe, by ring⟩

/-- Serialized accounting identity for any schedule of token redemptions and
usage debits presented with a device's key: the final balance equals the
initial balance plus the credited amounts minus the accepted debit amounts.
Each operation is a single storage transaction in the source, so this covers
every serialization of a concurrent set of operations; whether concurrent
transactions do serialize is a property of the database engine's isolation,
outside this embedding. -/
theorem settleRun_balance (key : String) (device : Device)
    (hact : device.status = true) (ops : List SettlementOp) :
    ∀ db, (db.devices.map Device.deviceKey).Nodup →
      findDeviceByKey db key = some device →
      balanceOf (settleRun db key ops).1 device.id
        = balanceOf db device.id + (settleRun db key ops).2.1
            - (settleRun db key ops).2.2 := by
  induction ops with
  | nil =>
    intro db _ _
    simp [settleRun]
  | cons op rest ih =>
    intro db hkeys hdev
    obtain ⟨hdevs, hbal⟩ := settleStep_balance db key op device hkeys hdev hact
    have hkeys' : ((settleStep db key op).1.devices.map Device.deviceKey).Nodup := by
      rw [hdevs]; exact hkeys
    have hdev' : findDeviceByKey (settleStep db key op).1 key = some device := by
      unfold findDeviceByKey at hdev ⊢
      rw [hdevs]
      exact hdev
    have hrec := ih (settleStep db key op).1 hkeys' hdev'
    simp only [settleRun]
    rw [hrec, hbal]
    ring

/-- Witness for C5 (amended): device with balance 30, serialized debits
[20, 1000]; the second trace step (the 1000 debit, insufficient against the
remaining 10) is rejected with the balance value unchanged. -/
theorem C5_witness :
    (∀ r, (Except.ok ⟨false, false, 10, some "Insufficient balance", none⟩
          : Except ApiError usageService.UsageRes) = .ok r → r.valid = true →
        0 ≤ balanceOf
          (⟨[⟨"d1", "D1", true, "u1"⟩], [], [⟨"d1", 10, ""⟩], [⟨"d1", 20, 9⟩]⟩ : DB) "d1") ∧
    (balanceOf (⟨[⟨"d1", "D1", true, "u1"⟩], [], [⟨"d1", 10, ""⟩], [⟨"d1", 20, 9⟩]⟩ : DB)
          "d1" < 1000 →
        balanceOf (⟨[⟨"d1", "D1", true, "u1"⟩], [], [⟨"d1", 10, ""⟩], [⟨"d1", 20, 9⟩]⟩ : DB)
            "d1"
          = balanceOf (⟨[⟨"d1", "D1", true, "u1"⟩], [], [⟨"d1", 10, ""⟩],
              [⟨"d1", 20, 9⟩]⟩ : DB) "d1" ∧
        ∀ r, (Except.ok ⟨false, false, 10, some "Insufficient balance", none⟩
            : Except ApiError usageService.UsageRes) = .ok r → r.valid = false) := by
  have hs1 : usageService.logDeviceUsage
      (⟨[⟨"d1", "D1", true, "u1"⟩], [], [⟨"d1", 30, ""⟩], []⟩ : DB) "D1" 20 9
      = ((⟨[⟨"d1", "D1", true, "u1"⟩], [], [⟨"d1", 10, ""⟩], [⟨"d1", 20, 9⟩]⟩ : DB),
         .ok ⟨true, true, 10, none, some ⟨"d1", 20, 9⟩⟩) := by
    simp [usageService.logDeviceUsage, usageService.applyUsage, findDeviceByKey,
      findBalance, updateBalanceRow, List.find?]
    norm_num
  have hs2 : usageService.logDeviceUsage
      (⟨[⟨"d1", "D1", true, "u1"⟩], [], [⟨"d1", 10, ""⟩], [⟨"d1", 20, 9⟩]⟩ : DB) "D1" 1000 9
      = ((⟨[⟨"d1", "D1", true, "u1"⟩], [], [⟨"d1", 10, ""⟩], [⟨"d1", 20, 9⟩]⟩ : DB),
         .ok ⟨false, false, 10, some "Insufficient balance", none⟩) := by
    simp [usageService.logDeviceUsage, usageService.applyUsage, findDeviceByKey,
      findBalance, List.find?]
    norm_num
  have htr : debitTrace (⟨[⟨"d1", "D1", true, "u1"⟩], [], [⟨"d1", 30, ""⟩], []⟩ : DB)
      "D1" 9 [20, 1000]
      = [⟨20, ⟨[⟨"d1", "D1", true, "u1"⟩], [], [⟨"d1", 30, ""⟩], []⟩,
           ⟨[⟨"d1", "D1", true, "u1"⟩], [], [⟨"d1", 10, ""⟩], [⟨"d1", 20, 9⟩]⟩,
           .ok ⟨true, true, 10, none, some ⟨"d1", 20, 9⟩⟩⟩,
         ⟨1000, ⟨[⟨"d1", "D1", true, "u1"⟩], [], [⟨"d1", 10, ""⟩], [⟨"d1", 20, 9⟩]⟩,
           ⟨[⟨"d1", "D1", true, "u1"⟩], [], [⟨"d1", 10, ""⟩], [⟨"d1", 20, 9⟩]⟩,
           .ok ⟨false, false, 10, some "Insufficient balance", none⟩⟩] := by
    rw [debitTrace, hs1]
    rw [debitTrace, hs2]
    rw [debitTrace]
  have H := C5_amended_sequential_debits "D1" 9 ⟨"d1", "D1", true, "u1"⟩ rfl [20, 1000]
    (⟨[⟨"d1", "D1", true, "u1"⟩], [], [⟨"d1", 30, ""⟩], []⟩ : DB) rfl
    ⟨1000, ⟨[⟨"d1", "D1", true, "u1"⟩], [], [⟨"d1", 10, ""⟩], [⟨"d1", 20, 9⟩]⟩,
      ⟨[⟨"d1", "D1", true, "u1"⟩], [], [⟨"d1", 10, ""⟩], [⟨"d1", 20, 9⟩]⟩,
      .ok ⟨false, false, 10, some "Insufficient balance", none⟩⟩
    (by rw [htr]; exact List.mem_cons_of_mem _ (List.mem_cons_self _ _))
  exact H

end WaterPulsa
